import Mathlib

set_option autoImplicit false

/-!
Shallow embedding of the target-acquisition and servo-control loop of
`rpi_control` (files `rpi_control/utils/tracking_motors.py` and
`rpi_control/utils/new_tracking.py`).  Angles and pixel coordinates are
modelled as rationals (`ℚ`); the Python floats involved carry small decimal
constants (0.5, 1.5) and the claims under study do not concern
floating-point rounding.  Hardware channel writes (`kit.servo[i].angle = …`,
`set_arm_position`) are modelled as fields of an explicit state record.
-/

namespace TrackingMotors

/-- `IMAGE_WIDTH` in `tracking_motors.py`. -/
def IMAGE_WIDTH : ℚ := 640

/-- `IMAGE_HEIGHT` in `tracking_motors.py`. -/
def IMAGE_HEIGHT : ℚ := 360

/-- `DEADZONE_X` (pixel dead-zone for the horizontal error). -/
def DEADZONE_X : ℚ := 60

/-- `DEADZONE_Y` (pixel dead-zone for the vertical error). -/
def DEADZONE_Y : ℚ := 40

/-- `K_P = 0.5`, the proportional gain. -/
def K_P : ℚ := 1/2

/-- `SERVO_STEP = 1.5`, the maximal per-tick angle step. -/
def SERVO_STEP : ℚ := 3/2

/-- `CENTRE_X = IMAGE_WIDTH // 2`. -/
def CENTRE_X : ℚ := 320

/-- `CENTRE_Y = IMAGE_HEIGHT // 2`. -/
def CENTRE_Y : ℚ := 180

/-- `DETECTION_WINDOW = 1.0` (seconds) for conflict detection. -/
def DETECTION_WINDOW : ℚ := 1

/-- `CONFLICT_THRESHOLD = 3`. -/
def CONFLICT_THRESHOLD : ℕ := 3

/-- The per-axis angle dead-zones, the module-level `deadzones` dict.
In the source all three are `(999, -1)` (disabled); they are kept as state
so the dead-zone mechanism itself can be analysed. -/
structure Deadzones where
  servo0 : ℚ × ℚ
  servo1 : ℚ × ℚ
  arm : ℚ × ℚ
deriving DecidableEq, Repr

/-- The keys of the `deadzones` dict used by the source. -/
inductive DzKey where
  | servo0 : DzKey
  | servo1 : DzKey
  | arm : DzKey
deriving DecidableEq, Repr

/-- Servo-controller state: the four commanded hardware channel angles
(`kit.servo[i].angle`), the three module-level stored angles
(`servo0_angle`, `servo1_angle`, `arm_angle`) and the dead-zone table. -/
structure ServoState where
  ch0 : ℚ
  ch1 : ℚ
  ch2 : ℚ
  ch3 : ℚ
  servo0_angle : ℚ
  servo1_angle : ℚ
  arm_angle : ℚ
  deadzones : Deadzones
deriving DecidableEq, Repr

/-- `max(0, min(180, angle))`, the clamp used throughout the source. -/
def clamp180 (a : ℚ) : ℚ := max 0 (min 180 a)

/-- Dead-zone lookup `deadzones[deadzone_key]`. -/
def dzOf (s : ServoState) : DzKey → ℚ × ℚ
  | .servo0 => s.deadzones.servo0
  | .servo1 => s.deadzones.servo1
  | .arm => s.deadzones.arm

/-- `in_deadzone(angle, deadzone)` from `tracking_motors.py` (the method
`FaceTrackingSystem.in_deadzone` in `new_tracking.py` is identical):
inside iff `dz_min <= angle <= dz_max`, and `dz_min > dz_max` means the
dead-zone is disabled. -/
def in_deadzone (angle : ℚ) (deadzone : ℚ × ℚ) : Bool :=
  if deadzone.1 ≤ deadzone.2 then
    decide (deadzone.1 ≤ angle ∧ angle ≤ deadzone.2)
  else
    false

/-- Write to hardware channel `idx` (`kit.servo[idx].angle = a`). -/
def setCh (s : ServoState) (idx : ℕ) (a : ℚ) : ServoState :=
  match idx with
  | 0 => { s with ch0 := a }
  | 1 => { s with ch1 := a }
  | 2 => { s with ch2 := a }
  | 3 => { s with ch3 := a }
  | _ => s

/-- `set_servo_angle_with_deadzone(servo_index, angle, deadzone_key)`:
clamp to `[0,180]`, then command the channel unless the clamped angle lies
in the axis dead-zone. -/
def set_servo_angle_with_deadzone (s : ServoState) (servo_index : ℕ)
    (angle : ℚ) (deadzone_key : DzKey) : ServoState :=
  let angle := clamp180 angle
  if in_deadzone angle (dzOf s deadzone_key) then s
  else setCh s servo_index angle

/-- `set_arm_position(kit, angle)`: linked control of channels 2 and 3;
raises `ValueError` when the angle is outside `[0,180]`, modelled as
`Except.error`. -/
def set_arm_position (s : ServoState) (angle : ℚ) : Except String ServoState :=
  if angle < 0 ∨ angle > 180 then
    .error "Angle must be between 0 and 180 degrees."
  else
    .ok { s with ch3 := angle, ch2 := 180 - angle }

/-- `set_arm_angle_with_deadzone(angle)`: clamp, dead-zone check, then
`set_arm_position`. -/
def set_arm_angle_with_deadzone (s : ServoState) (angle : ℚ) :
    Except String ServoState :=
  let angle := clamp180 angle
  if in_deadzone angle s.deadzones.arm then .ok s
  else set_arm_position s angle

/-- Total runner for `set_arm_angle_with_deadzone`; the error branch is
proved unreachable (`set_arm_angle_with_deadzone_ok`), since the angle is
clamped before `set_arm_position` is called. -/
def set_arm_angle_with_deadzone_run (s : ServoState) (angle : ℚ) : ServoState :=
  match set_arm_angle_with_deadzone s angle with
  | .ok t => t
  | .error _ => s

/-- The per-tick delta `clamp(K_P * error, -SERVO_STEP, SERVO_STEP)` guarded
by the pixel dead-zone, shared by both axes of
`adjust_servo_angles_using_old_logic`. -/
def delta_for (error pixel_dz : ℚ) : ℚ :=
  if |error| > pixel_dz then max (-SERVO_STEP) (min SERVO_STEP (K_P * error))
  else 0

/-- The local `delta_servo1` of `adjust_servo_angles_using_old_logic`,
from `error_x = CENTRE_X - target_x`. -/
def delta_servo1 (target_x : ℚ) : ℚ := delta_for (CENTRE_X - target_x) DEADZONE_X

/-- The local `delta_servo0` of `adjust_servo_angles_using_old_logic`,
from `error_y = CENTRE_Y - target_y`. -/
def delta_servo0 (target_y : ℚ) : ℚ := delta_for (CENTRE_Y - target_y) DEADZONE_Y

/-- The local `new_servo1_angle`: `clamp(servo1_angle + delta_servo1)`. -/
def new_servo1_angle (s : ServoState) (target_x : ℚ) : ℚ :=
  clamp180 (s.servo1_angle + delta_servo1 target_x)

/-- The local `new_servo0_angle`: `clamp(servo0_angle - delta_servo0)` —
note the inverted sign: a negative `delta_servo0` raises the candidate
angle. -/
def new_servo0_angle (s : ServoState) (target_y : ℚ) : ℚ :=
  clamp180 (s.servo0_angle - delta_servo0 target_y)

/-- The local `servo0_moved` flag (lines 120–125): the saturation check of
the vertical cascade. -/
def servo0_moved (s : ServoState) (target_y : ℚ) : Bool :=
  if delta_servo0 target_y < 0 ∧ new_servo0_angle s target_y ≤ 0 then false
  else if delta_servo0 target_y > 0 ∧ new_servo0_angle s target_y ≥ 180 then false
  else true

/-- The local `new_arm_angle` (lines 127–135). -/
def new_arm_angle (s : ServoState) (target_y : ℚ) : ℚ :=
  if servo0_moved s target_y then s.arm_angle
  else if delta_servo0 target_y < 0 ∧ new_servo0_angle s target_y ≤ 0 then
    max 0 (s.arm_angle + -SERVO_STEP)
  else if delta_servo0 target_y > 0 ∧ new_servo0_angle s target_y ≥ 180 then
    min 180 (s.arm_angle + SERVO_STEP)
  else s.arm_angle

/-- `adjust_servo_angles_using_old_logic(target_x, target_y)`: one tick of
the cascading proportional controller, translated line by line from
`tracking_motors.py` lines 89–148 (each local variable of the source is
one of the named definitions above). -/
def adjust_servo_angles_using_old_logic (s : ServoState) (target_x target_y : ℚ) :
    ServoState :=
  let s1 := if servo0_moved s target_y
            then { s with servo0_angle := new_servo0_angle s target_y } else s
  let s2 := set_servo_angle_with_deadzone s1 1 (new_servo1_angle s target_x) .servo1
  let s3 := { s2 with servo1_angle := new_servo1_angle s target_x }
  if servo0_moved s target_y then
    set_servo_angle_with_deadzone s3 0 s3.servo0_angle .servo0
  else
    { set_arm_angle_with_deadzone_run s3 (new_arm_angle s target_y) with
        arm_angle := new_arm_angle s target_y }

/-- From `new_tracking.py`, `FaceTrackingSystem.set_servo_angle_with_deadzone`
(lines 113–119): the hardware angle written by one call, if any.  The
instance dead-zone table is passed as the `dz` argument. -/
def newTracking_commanded_angle (angle : ℚ) (dz : ℚ × ℚ) : Option ℚ :=
  let a := clamp180 angle
  if in_deadzone a dz then none else some a

/-- One entry of a subject's conflict window, the tuple
`(timestamp, detection_id, x, y)` stored in `detection_conflicts`. -/
structure WEntry where
  timestamp : ℚ
  detection_id : String
  x : ℚ
  y : ℚ
deriving DecidableEq, Repr

/-- Lookup in an insertion-ordered association list (Python `dict` access). -/
def alGet {α : Type} (l : List (String × α)) (k : String) : Option α :=
  match l with
  | [] => none
  | (k2, v) :: rest => if k2 = k then some v else alGet rest k

/-- Update in an insertion-ordered association list (Python `dict` item
assignment: overwrite in place, or append a new key at the end). -/
def alSet {α : Type} (l : List (String × α)) (k : String) (v : α) :
    List (String × α) :=
  match l with
  | [] => [(k, v)]
  | (k2, v2) :: rest =>
    if k2 = k then (k2, v) :: rest else (k2, v2) :: alSet rest k v

/-- Resolver state: the module globals `detection_conflicts` (gallery id →
window entries, insertion-ordered) and `current_override`. -/
structure ResolverState where
  detection_conflicts : List (String × List WEntry)
  current_override : Option String
deriving DecidableEq, Repr

/-- The initial resolver state (`detection_conflicts = {}`,
`current_override = None`). -/
def initResolver : ResolverState := ⟨[], none⟩

/-- Python truthiness of `current_override` in
`if len(unique_detection_ids) == 1 and current_override:` — `None` and the
empty string are falsy. -/
def overrideTruthy (o : Option String) : Bool :=
  match o with
  | none => false
  | some s => decide (s ≠ "")

/-- The distinct elements of a list in first-occurrence order; only its
length is used (for `len(set(...))` in the source). -/
def distinctList (l : List String) : List String :=
  l.foldl (fun acc a => if a ∈ acc then acc else acc ++ [a]) []

/-- One step of building `detection_groups`: append position `p` to the
group of `d`, creating the group at the end if absent (Python dict
insertion order). -/
def groupInsert (gs : List (String × List (ℚ × ℚ))) (d : String) (p : ℚ × ℚ) :
    List (String × List (ℚ × ℚ)) :=
  match gs with
  | [] => [(d, [p])]
  | (k, ps) :: rest =>
    if k = d then (k, ps ++ [p]) :: rest else (k, ps) :: groupInsert rest d p

/-- `detection_groups`: group the window entries by `detection_id`,
keys in first-occurrence order, positions in window order. -/
def groupByDet (es : List WEntry) : List (String × List (ℚ × ℚ)) :=
  es.foldl (fun gs e => groupInsert gs e.detection_id (e.x, e.y)) []

/-- Mean of a list of rationals (`sum(...) / len(...)`). -/
def avg (l : List ℚ) : ℚ := l.sum / l.length

/-- Squared Euclidean distance from a group's mean position to the frame
center.  The source computes `((avg_x - CENTRE_X)**2 + (avg_y - CENTRE_Y)**2)**0.5`
and only ever compares two such distances with `<`; since the square root
is strictly monotone on nonnegatives, comparing the squared distances gives
exactly the same comparisons and ties, and stays inside `ℚ`. -/
def groupDist2 (ps : List (ℚ × ℚ)) : ℚ :=
  let avg_x := avg (ps.map Prod.fst)
  let avg_y := avg (ps.map Prod.snd)
  (avg_x - CENTRE_X) ^ 2 + (avg_y - CENTRE_Y) ^ 2

/-- The `closest_id` / `min_distance` fold of `check_detection_conflicts`:
start from `closest_id = None, min_distance = inf` and keep the group with
the strictly smaller distance. -/
def selectClosest (gs : List (String × List (ℚ × ℚ))) : Option String :=
  (gs.foldl
    (fun acc g =>
      match acc with
      | none => some (g.1, groupDist2 g.2)
      | some (cid, md) =>
        if groupDist2 g.2 < md then some (g.1, groupDist2 g.2)
        else some (cid, md))
    none).map Prod.fst

/-- The subject's window after purging entries older than
`DETECTION_WINDOW` (lines 209–217; a missing key yields the empty list the
source initialises it to). -/
def purged_window (s : ResolverState) (current_time : ℚ) (gallery_id : String) :
    List WEntry :=
  ((alGet s.detection_conflicts gallery_id).getD []).filter
    (fun e => current_time - e.timestamp < DETECTION_WINDOW)

/-- The local `recent_detections`: the purged window with the new detection
appended (lines 219–223). -/
def recent_detections (s : ResolverState) (current_time : ℚ)
    (gallery_id detection_id : String) (center_x center_y : ℚ) : List WEntry :=
  purged_window s current_time gallery_id ++
    [⟨current_time, detection_id, center_x, center_y⟩]

/-- `check_detection_conflicts(gallery_id, detection_id, center_x, center_y)`
(lines 201–261): purge the subject's window, insert the new detection, and
either return the submitted identity or, on a genuine conflict, the
identity whose mean position is closest to the frame center.  `current_time`
is the explicit model of `time.time()`. -/
def check_detection_conflicts (s : ResolverState) (current_time : ℚ)
    (gallery_id detection_id : String) (center_x center_y : ℚ) :
    ResolverState × String :=
  let recent := recent_detections s current_time gallery_id detection_id
                  center_x center_y
  let conflicts := alSet s.detection_conflicts gallery_id recent
  let uniqueCount := (distinctList (recent.map WEntry.detection_id)).length
  if uniqueCount > 1 ∧ recent.length ≥ CONFLICT_THRESHOLD then
    -- the `getD` default is unreachable: `recent` is nonempty, so
    -- `selectClosest` returns a value (see `selectClosest_isSome`)
    let closest := (selectClosest (groupByDet recent)).getD detection_id
    ({ detection_conflicts := conflicts, current_override := some closest }, closest)
  else if uniqueCount = 1 ∧ overrideTruthy s.current_override then
    ({ detection_conflicts := conflicts, current_override := none }, detection_id)
  else
    ({ detection_conflicts := conflicts, current_override := s.current_override },
      detection_id)

/-- Target-selection state: the module globals of the auto-regression
section of `tracking_motors.py`. -/
structure TargetState where
  TARGET_GALLERY_ID : String
  LAST_MANUAL_TARGET_ID : String
  manual_update_detected : Bool
  lost_target_start_time : Option ℚ
  lost_1_start_time : Option ℚ
  last_seen_gallery_time : List (String × ℚ)
deriving DecidableEq, Repr

/-- `update_last_seen(g_id)`: `last_seen_gallery_time[g_id] = time.time()`. -/
def update_last_seen (s : TargetState) (g_id : String) (now : ℚ) : TargetState :=
  { s with last_seen_gallery_time := alSet s.last_seen_gallery_time g_id now }

/-- `get_active_ids(window)`: gallery ids seen within `window` seconds. -/
def get_active_ids (s : TargetState) (now window : ℚ) : List String :=
  (s.last_seen_gallery_time.filter (fun p => now - p.2 < window)).map Prod.fst

/-- `check_and_update_manual_target()` (lines 326–347), with the value read
from `target_face.txt` passed as `new_target_id`. -/
def check_and_update_manual_target (s : TargetState) (new_target_id : String) :
    TargetState :=
  if new_target_id ≠ s.TARGET_GALLERY_ID then
    { s with TARGET_GALLERY_ID := new_target_id,
             LAST_MANUAL_TARGET_ID := new_target_id,
             manual_update_detected := true,
             lost_target_start_time := none,
             lost_1_start_time := none }
  else
    { s with manual_update_detected := false }

/-- `min(int(x) for x in active_list)`.  Python `int(x)` raises on a
non-numeric string; the guarded call site only ever evaluates this on a
nonempty list of numeric gallery ids, so the defaults are unreachable
there. -/
def minIntOfActive (l : List String) : Int :=
  match l.map (fun x => x.toInt?.getD 0) with
  | [] => 0
  | a :: rest => rest.foldl min a

/-- First block of `auto_regression_logic` (lines 359–370): revert to `"1"`
when the active target has been missing from `active_list` for ≥ 1 s. -/
def auto_block1 (s : TargetState) (now : ℚ) (active_list : List String) :
    TargetState :=
  if s.TARGET_GALLERY_ID ∉ active_list then
    match s.lost_target_start_time with
    | none => { s with lost_target_start_time := some now }
    | some t0 =>
      if now - t0 ≥ 1 then
        { s with TARGET_GALLERY_ID := "1", lost_target_start_time := none }
      else s
  else { s with lost_target_start_time := none }

/-- Second block (lines 372–385): when the target is `"1"` but `"1"` has
been missing for ≥ 1 s, pick the numerically smallest active id. -/
def auto_block2 (s : TargetState) (now : ℚ) (active_list : List String) :
    TargetState :=
  if s.TARGET_GALLERY_ID = "1" ∧ "1" ∉ active_list then
    match s.lost_1_start_time with
    | none => { s with lost_1_start_time := some now }
    | some t0 =>
      if now - t0 ≥ 1 then
        if active_list.length > 0 then
          { s with TARGET_GALLERY_ID := toString (minIntOfActive active_list),
                   lost_1_start_time := none }
        else { s with lost_1_start_time := none }
      else s
  else { s with lost_1_start_time := none }

/-- Third block (lines 392–398): `"1"` reappeared and the last manual
choice was `"1"`. -/
def auto_block3 (s : TargetState) (active_list : List String) : TargetState :=
  if s.TARGET_GALLERY_ID ≠ "1" ∧ "1" ∈ active_list ∧
      s.LAST_MANUAL_TARGET_ID = "1" then
    { s with TARGET_GALLERY_ID := "1" }
  else s

/-- Fourth block (lines 400–406): the last manual (non-default) target
reappeared. -/
def auto_block4 (s : TargetState) (active_list : List String) : TargetState :=
  if s.LAST_MANUAL_TARGET_ID ≠ "1" ∧ s.LAST_MANUAL_TARGET_ID ∈ active_list ∧
      s.TARGET_GALLERY_ID ≠ s.LAST_MANUAL_TARGET_ID then
    { s with TARGET_GALLERY_ID := s.LAST_MANUAL_TARGET_ID }
  else s

/-- `auto_regression_logic()` (lines 349–406): the four blocks in source
order, all reading the `active_list` computed once at entry; `now` models
`time.time()`. -/
def auto_regression_logic (s : TargetState) (now : ℚ) : TargetState :=
  let active_list := get_active_ids s now 1
  auto_block4 (auto_block3 (auto_block2 (auto_block1 s now active_list)
    now active_list) active_list) active_list

/-- The target-id maintenance slice of one `track_face` iteration
(lines 424–432): check for a manual update, and run auto-regression only
when none was detected. -/
def target_tick (s : TargetState) (requested : String) (now : ℚ) : TargetState :=
  let s1 := check_and_update_manual_target s requested
  if s1.manual_update_detected then s1 else auto_regression_logic s1 now

/-- One CSV detection record as consumed by `track_face`, after numeric
parsing: `offset` is `Rec_BufferSet` (the sequence number) and the position
is the parsed `Center_X`/`Center_Y`.  The `''`/`'null'` validity tests the
source performs on the id fields are kept on the string fields. -/
structure Row where
  offset : Int
  detection_id : String
  gallery_id : String
  center_x : ℚ
  center_y : ℚ
deriving DecidableEq, Repr

/-- Python `field in [None, '', 'null']` on a string field. -/
def invalidField (x : String) : Bool := decide (x = "" ∨ x = "null")

/-- Whole-loop tracking state of `track_face`: servo state, resolver state,
target-selection state, and the loop locals `last_offset`, `x_last`,
`y_last`. -/
structure TrackState where
  servo : ServoState
  resolver : ResolverState
  target : TargetState
  last_offset : Int
  x_last : Option ℚ
  y_last : Option ℚ
deriving DecidableEq, Repr

/-- The row-processing slice of one `track_face` iteration (lines 434–470):
update presence bookkeeping, resolve conflicts, and actuate only when the
resolved identity matches and the sequence number is new. -/
def process_row (s : TrackState) (now : ℚ) (row : Row) : TrackState :=
  let s0 :=
    if invalidField row.gallery_id then s
    else { s with target := update_last_seen s.target row.gallery_id now }
  if row.gallery_id = s0.target.TARGET_GALLERY_ID ∧
      ¬ invalidField row.detection_id then
    let rc := check_detection_conflicts s0.resolver now row.gallery_id
                row.detection_id row.center_x row.center_y
    let s1 := { s0 with resolver := rc.1 }
    if rc.2 = row.detection_id ∧ row.offset > s1.last_offset then
      { s1 with
          last_offset := row.offset,
          x_last := some row.center_x,
          y_last := some row.center_y,
          servo := adjust_servo_angles_using_old_logic s1.servo row.center_x
                     row.center_y }
    else s1
  else s0

/-- An angle is within the mechanical limits `[0, 180]`. -/
def angleInRange (a : ℚ) : Prop := 0 ≤ a ∧ a ≤ 180

/-- All seven angle fields of the servo state are within `[0, 180]`. -/
def ServoState.inRange (s : ServoState) : Prop :=
  angleInRange s.ch0 ∧ angleInRange s.ch1 ∧ angleInRange s.ch2 ∧
  angleInRange s.ch3 ∧ angleInRange s.servo0_angle ∧
  angleInRange s.servo1_angle ∧ angleInRange s.arm_angle

/-- Spec-side selection rule for C4, following the specification text: among
the groups (in first-inserted order), return the first one whose mean
position attains the minimal distance to the frame center — "the identity
whose mean is closest …; when two means are equidistant, the first-inserted
identity wins".  Stated with squared distances, which order-agree with the
Euclidean distances the source compares. -/
def specClosest (gs : List (String × List (ℚ × ℚ))) : Option String :=
  match gs with
  | [] => none
  | g :: rest =>
    let m := (rest.map (fun h => groupDist2 h.2)).foldl min (groupDist2 g.2)
    ((g :: rest).find? (fun h => decide (groupDist2 h.2 = m))).map Prod.fst

/-- One call to the conflict resolver, for reasoning about call sequences. -/
structure RCall where
  time : ℚ
  gallery_id : String
  detection_id : String
  x : ℚ
  y : ℚ
deriving DecidableEq, Repr

/-- Run a sequence of resolver calls, collecting the returned identities. -/
def runResolver (s : ResolverState) (calls : List RCall) :
    ResolverState × List String :=
  match calls with
  | [] => (s, [])
  | c :: rest =>
    let r := check_detection_conflicts s c.time c.gallery_id c.detection_id c.x c.y
    let rr := runResolver r.1 rest
    (rr.1, r.2 :: rr.2)

/-- Every window entry recorded for `gallery_id` carries detector identity
`d`. -/
def windowAll (s : ResolverState) (gallery_id d : String) : Prop :=
  ∀ e ∈ (alGet s.detection_conflicts gallery_id).getD ([] : List WEntry),
    e.detection_id = d

/-- The states strictly after `s` along a run of pure auto-regression ticks
at the given times (the `manual_update_detected = False` path of the loop). -/
def autoTail : TargetState → List ℚ → List TargetState
  | _, [] => []
  | s, t :: rest =>
    autoTail (auto_regression_logic s t) rest |>.cons (auto_regression_logic s t)

/-- The full state trace of a run of auto-regression ticks, starting state
included. -/
def autoStates (s : TargetState) (ts : List ℚ) : List TargetState :=
  s :: autoTail s ts

/-- The disabled dead-zone table of the source: all axes `(999, -1)`. -/
def dzDisabled : Deadzones := ⟨(999, -1), (999, -1), (999, -1)⟩

/-- The servo state right after startup: stored angles at
`INITIAL_SERVO0_ANGLE = 120`, `INITIAL_SERVO1_ANGLE = 95`,
`INITIAL_ARM_ANGLE = 90`, channels commanded accordingly
(`ch2 = 180 - 90`). -/
def servoInit : ServoState :=
  { ch0 := 120, ch1 := 95, ch2 := 90, ch3 := 90,
    servo0_angle := 120, servo1_angle := 95, arm_angle := 90,
    deadzones := dzDisabled }

/-- `servoInit` with the primary tilt axis pinned at its low limit 0. -/
def servoAtLowLimit : ServoState := { servoInit with servo0_angle := 0, ch0 := 0 }

/-- `servoInit` with an enabled pan dead-zone covering `[0, 180]`,
exercising the suppression path of `set_servo_angle_with_deadzone`. -/
def servoPanDz : ServoState :=
  { servoInit with deadzones := ⟨(999, -1), (0, 180), (999, -1)⟩ }

/-- A target-selection state tracking subject `"7"`, nothing seen yet. -/
def targetInit7 : TargetState :=
  { TARGET_GALLERY_ID := "7", LAST_MANUAL_TARGET_ID := "7",
    manual_update_detected := false,
    lost_target_start_time := none, lost_1_start_time := none,
    last_seen_gallery_time := [] }

/-- A whole-loop tracking state at startup, tracking subject `"7"`
(`last_offset = -1` as in `track_face`). -/
def trackInit7 : TrackState :=
  { servo := servoInit, resolver := initResolver, target := targetInit7,
    last_offset := -1, x_last := none, y_last := none }

/-- A detection row for subject `"7"`, detector identity `"a"`, sequence 5,
position `(0, 0)`. -/
def rowC7 : Row :=
  { offset := 5, detection_id := "a", gallery_id := "7",
    center_x := 0, center_y := 0 }

/-- Resolver state holding two recent window entries for subject `"g"`,
both from detector `"a"` at the frame center. -/
def resolverTwoA : ResolverState :=
  { detection_conflicts := [("g", [⟨0, "a", 320, 180⟩, ⟨1/2, "a", 320, 180⟩])],
    current_override := none }

/-- Resolver state with one window entry for `"g"` (detector `"a"`) and a
standing override `"x"`. -/
def resolverOneOverride : ResolverState :=
  { detection_conflicts := [("g", [⟨0, "a", 0, 0⟩])],
    current_override := some "x" }

/-! ### Clamping, channel writes and the dead-zone mechanism -/

theorem clamp180_mem (a : ℚ) : angleInRange (clamp180 a) :=
  ⟨le_max_left 0 _, max_le (by norm_num) (min_le_left 180 a)⟩

theorem inRange_setCh (s : ServoState) (idx : ℕ) (a : ℚ)
    (h : s.inRange) (ha : angleInRange a) : (setCh s idx a).inRange := by
  obtain ⟨h0, h1, h2, h3, h4, h5, h6⟩ := h
  unfold setCh
  match idx with
  | 0 => exact ⟨ha, h1, h2, h3, h4, h5, h6⟩
  | 1 => exact ⟨h0, ha, h2, h3, h4, h5, h6⟩
  | 2 => exact ⟨h0, h1, ha, h3, h4, h5, h6⟩
  | 3 => exact ⟨h0, h1, h2, ha, h4, h5, h6⟩
  | (_ + 4) => exact ⟨h0, h1, h2, h3, h4, h5, h6⟩

@[simp] theorem setCh_servo0_angle (s : ServoState) (idx : ℕ) (a : ℚ) :
    (setCh s idx a).servo0_angle = s.servo0_angle := by
  unfold setCh
  match idx with
  | 0 | 1 | 2 | 3 | (_ + 4) => rfl

@[simp] theorem setCh_servo1_angle (s : ServoState) (idx : ℕ) (a : ℚ) :
    (setCh s idx a).servo1_angle = s.servo1_angle := by
  unfold setCh
  match idx with
  | 0 | 1 | 2 | 3 | (_ + 4) => rfl

@[simp] theorem setCh_arm_angle (s : ServoState) (idx : ℕ) (a : ℚ) :
    (setCh s idx a).arm_angle = s.arm_angle := by
  unfold setCh
  match idx with
  | 0 | 1 | 2 | 3 | (_ + 4) => rfl

@[simp] theorem setCh_deadzones (s : ServoState) (idx : ℕ) (a : ℚ) :
    (setCh s idx a).deadzones = s.deadzones := by
  unfold setCh
  match idx with
  | 0 | 1 | 2 | 3 | (_ + 4) => rfl

@[simp] theorem setCh_zero_ch2 (s : ServoState) (a : ℚ) :
    (setCh s 0 a).ch2 = s.ch2 := rfl

@[simp] theorem setCh_zero_ch3 (s : ServoState) (a : ℚ) :
    (setCh s 0 a).ch3 = s.ch3 := rfl

@[simp] theorem setCh_one_ch2 (s : ServoState) (a : ℚ) :
    (setCh s 1 a).ch2 = s.ch2 := rfl

@[simp] theorem setCh_one_ch3 (s : ServoState) (a : ℚ) :
    (setCh s 1 a).ch3 = s.ch3 := rfl

theorem inRange_set_servo (s : ServoState) (idx : ℕ) (a : ℚ) (key : DzKey)
    (h : s.inRange) : (set_servo_angle_with_deadzone s idx a key).inRange := by
  unfold set_servo_angle_with_deadzone
  dsimp only
  split
  · exact h
  · exact inRange_setCh s idx _ h (clamp180_mem a)

@[simp] theorem set_servo_servo0_angle (s : ServoState) (idx : ℕ) (a : ℚ)
    (key : DzKey) :
    (set_servo_angle_with_deadzone s idx a key).servo0_angle = s.servo0_angle := by
  unfold set_servo_angle_with_deadzone
  dsimp only
  split <;> simp

@[simp] theorem set_servo_servo1_angle (s : ServoState) (idx : ℕ) (a : ℚ)
    (key : DzKey) :
    (set_servo_angle_with_deadzone s idx a key).servo1_angle = s.servo1_angle := by
  unfold set_servo_angle_with_deadzone
  dsimp only
  split <;> simp

@[simp] theorem set_servo_arm_angle (s : ServoState) (idx : ℕ) (a : ℚ)
    (key : DzKey) :
    (set_servo_angle_with_deadzone s idx a key).arm_angle = s.arm_angle := by
  unfold set_servo_angle_with_deadzone
  dsimp only
  split <;> simp

@[simp] theorem set_servo_zero_ch2 (s : ServoState) (a : ℚ) (key : DzKey) :
    (set_servo_angle_with_deadzone s 0 a key).ch2 = s.ch2 := by
  unfold set_servo_angle_with_deadzone
  dsimp only
  split <;> simp

@[simp] theorem set_servo_zero_ch3 (s : ServoState) (a : ℚ) (key : DzKey) :
    (set_servo_angle_with_deadzone s 0 a key).ch3 = s.ch3 := by
  unfold set_servo_angle_with_deadzone
  dsimp only
  split <;> simp

@[simp] theorem set_servo_one_ch2 (s : ServoState) (a : ℚ) (key : DzKey) :
    (set_servo_angle_with_deadzone s 1 a key).ch2 = s.ch2 := by
  unfold set_servo_angle_with_deadzone
  dsimp only
  split <;> simp

@[simp] theorem set_servo_one_ch3 (s : ServoState) (a : ℚ) (key : DzKey) :
    (set_servo_angle_with_deadzone s 1 a key).ch3 = s.ch3 := by
  unfold set_servo_angle_with_deadzone
  dsimp only
  split <;> simp

/-- Closed form of `set_arm_angle_with_deadzone_run`: since the angle is
clamped before `set_arm_position` is called, the error branch never
fires. -/
theorem set_arm_run_eq (s : ServoState) (a : ℚ) :
    set_arm_angle_with_deadzone_run s a =
      if in_deadzone (clamp180 a) s.deadzones.arm then s
      else { s with ch3 := clamp180 a, ch2 := 180 - clamp180 a } := by
  have hc := clamp180_mem a
  have hlt : ¬(clamp180 a < 0) := not_lt.mpr hc.1
  have hgt : ¬(clamp180 a > 180) := not_lt.mpr hc.2
  unfold set_arm_angle_with_deadzone_run set_arm_angle_with_deadzone
    set_arm_position
  by_cases h : in_deadzone (clamp180 a) s.deadzones.arm <;> simp [h, hlt, hgt]

/-- `set_arm_angle_with_deadzone` always succeeds. -/
theorem set_arm_angle_with_deadzone_ok (s : ServoState) (a : ℚ) :
    set_arm_angle_with_deadzone s a =
      .ok (set_arm_angle_with_deadzone_run s a) := by
  have hc := clamp180_mem a
  have hlt : ¬(clamp180 a < 0) := not_lt.mpr hc.1
  have hgt : ¬(clamp180 a > 180) := not_lt.mpr hc.2
  unfold set_arm_angle_with_deadzone_run set_arm_angle_with_deadzone
    set_arm_position
  by_cases h : in_deadzone (clamp180 a) s.deadzones.arm <;> simp [h, hlt, hgt]

theorem inRange_set_arm_run (s : ServoState) (a : ℚ)
    (h : s.inRange) : (set_arm_angle_with_deadzone_run s a).inRange := by
  rw [set_arm_run_eq]
  split
  · exact h
  · obtain ⟨h0, h1, h2, h3, h4, h5, h6⟩ := h
    have hc := clamp180_mem a
    refine ⟨h0, h1, ⟨?_, ?_⟩, hc, h4, h5, h6⟩ <;> dsimp <;>
      linarith [hc.1, hc.2]

@[simp] theorem set_arm_run_servo0_angle (s : ServoState) (a : ℚ) :
    (set_arm_angle_with_deadzone_run s a).servo0_angle = s.servo0_angle := by
  rw [set_arm_run_eq]; split <;> rfl

@[simp] theorem set_arm_run_servo1_angle (s : ServoState) (a : ℚ) :
    (set_arm_angle_with_deadzone_run s a).servo1_angle = s.servo1_angle := by
  rw [set_arm_run_eq]; split <;> rfl

@[simp] theorem set_arm_run_arm_angle (s : ServoState) (a : ℚ) :
    (set_arm_angle_with_deadzone_run s a).arm_angle = s.arm_angle := by
  rw [set_arm_run_eq]; split <;> rfl

theorem in_deadzone_iff (angle : ℚ) (dz : ℚ × ℚ) :
    in_deadzone angle dz = true ↔ dz.1 ≤ dz.2 ∧ dz.1 ≤ angle ∧ angle ≤ dz.2 := by
  unfold in_deadzone
  by_cases h : dz.1 ≤ dz.2 <;> simp [h]

theorem in_deadzone_disabled (angle : ℚ) (dz : ℚ × ℚ) (h : dz.2 < dz.1) :
    in_deadzone angle dz = false := by
  unfold in_deadzone
  rw [if_neg (not_le.mpr h)]

theorem inRange_update_servo0 (s : ServoState) (v : ℚ) (h : s.inRange)
    (hv : angleInRange v) : ServoState.inRange { s with servo0_angle := v } := by
  obtain ⟨h0, h1, h2, h3, h4, h5, h6⟩ := h
  exact ⟨h0, h1, h2, h3, hv, h5, h6⟩

theorem inRange_update_servo1 (s : ServoState) (v : ℚ) (h : s.inRange)
    (hv : angleInRange v) : ServoState.inRange { s with servo1_angle := v } := by
  obtain ⟨h0, h1, h2, h3, h4, h5, h6⟩ := h
  exact ⟨h0, h1, h2, h3, h4, hv, h6⟩

theorem inRange_update_arm (s : ServoState) (v : ℚ) (h : s.inRange)
    (hv : angleInRange v) : ServoState.inRange { s with arm_angle := v } := by
  obtain ⟨h0, h1, h2, h3, h4, h5, h6⟩ := h
  exact ⟨h0, h1, h2, h3, h4, h5, hv⟩

theorem new_servo0_mem (s : ServoState) (ty : ℚ) :
    angleInRange (new_servo0_angle s ty) := by
  unfold new_servo0_angle; exact clamp180_mem _

theorem new_servo1_mem (s : ServoState) (tx : ℚ) :
    angleInRange (new_servo1_angle s tx) := by
  unfold new_servo1_angle; exact clamp180_mem _

theorem new_arm_mem (s : ServoState) (ty : ℚ) (h : angleInRange s.arm_angle) :
    angleInRange (new_arm_angle s ty) := by
  obtain ⟨ha0, ha1⟩ := h
  unfold new_arm_angle
  split
  · exact ⟨ha0, ha1⟩
  · split
    · exact ⟨le_max_left _ _,
        max_le (by norm_num) (by unfold SERVO_STEP; linarith)⟩
    · split
      · exact ⟨le_min (by norm_num) (by unfold SERVO_STEP; linarith),
          min_le_left _ _⟩
      · exact ⟨ha0, ha1⟩

/-- For any tilt angle inside `[0, 180]` the saturation flag `servo0_moved`
is always `true`: the source tests `delta_servo0 < 0` together with
`new_servo0_angle <= 0` (and symmetrically), but a negative `delta_servo0`
*raises* the candidate angle (`new = servo0_angle - delta`), so the tested
combinations are unsatisfiable inside the mechanical range. -/
theorem servo0_moved_of_inRange (s : ServoState) (ty : ℚ)
    (h0 : 0 ≤ s.servo0_angle) (h180 : s.servo0_angle ≤ 180) :
    servo0_moved s ty = true := by
  have hlow : ¬(delta_servo0 ty < 0 ∧ new_servo0_angle s ty ≤ 0) := by
    rintro ⟨hd, hn⟩
    unfold new_servo0_angle clamp180 at hn
    have hy : 0 < s.servo0_angle - delta_servo0 ty := by linarith
    have hm : 0 < min 180 (s.servo0_angle - delta_servo0 ty) :=
      lt_min (by norm_num) hy
    have := le_max_right (0 : ℚ) (min 180 (s.servo0_angle - delta_servo0 ty))
    linarith
  have hhigh : ¬(delta_servo0 ty > 0 ∧ new_servo0_angle s ty ≥ 180) := by
    rintro ⟨hd, hn⟩
    unfold new_servo0_angle clamp180 at hn
    have hy : s.servo0_angle - delta_servo0 ty < 180 := by linarith
    have hm : min 180 (s.servo0_angle - delta_servo0 ty) < 180 :=
      lt_of_le_of_lt (min_le_right _ _) hy
    have : max 0 (min 180 (s.servo0_angle - delta_servo0 ty)) < 180 :=
      max_lt (by norm_num) hm
    linarith
  unfold servo0_moved
  rw [if_neg hlow, if_neg hhigh]

/-- **C1.**  For every target position (including out-of-frame coordinates)
and every servo state whose angles are within the mechanical range, one
tick of `adjust_servo_angles_using_old_logic` keeps every stored angle and
every commanded channel angle inside `[0, 180]`; likewise every angle the
`new_tracking.py` variant commands is clamped into `[0, 180]`. -/
theorem c1_one_tick_angles_stay_in_range (s : ServoState) (tx ty : ℚ)
    (h : s.inRange) :
    (adjust_servo_angles_using_old_logic s tx ty).inRange ∧
    (∀ (a : ℚ) (dz : ℚ × ℚ) (c : ℚ),
      newTracking_commanded_angle a dz = some c → angleInRange c) := by
  constructor
  · have harm : angleInRange s.arm_angle := h.2.2.2.2.2.2
    unfold adjust_servo_angles_using_old_logic
    dsimp only
    cases hmv : servo0_moved s ty
    · simp only [hmv, Bool.false_eq_true, if_false]
      exact inRange_update_arm _ _
        (inRange_set_arm_run _ _
          (inRange_update_servo1 _ _ (inRange_set_servo s 1 _ .servo1 h)
            (new_servo1_mem s tx)))
        (new_arm_mem s ty harm)
    · simp only [hmv, if_true]
      exact inRange_set_servo _ 0 _ .servo0
        (inRange_update_servo1 _ _
          (inRange_set_servo _ 1 _ .servo1
            (inRange_update_servo0 s _ h (new_servo0_mem s ty)))
          (new_servo1_mem s tx))
  · intro a dz c hc
    unfold newTracking_commanded_angle at hc
    dsimp only at hc
    by_cases hd : in_deadzone (clamp180 a) dz
    · simp [hd] at hc
    · simp [hd] at hc
      subst hc
      exact clamp180_mem a

/-- Witness for C1 at the startup state with a far out-of-frame target. -/
theorem c1_witness :
    servoInit.inRange ∧
    ((adjust_servo_angles_using_old_logic servoInit 1000000 (-1000000)).inRange ∧
      (∀ (a : ℚ) (dz : ℚ × ℚ) (c : ℚ),
        newTracking_commanded_angle a dz = some c → angleInRange c)) :=
  ⟨by norm_num [ServoState.inRange, angleInRange, servoInit],
    c1_one_tick_angles_stay_in_range servoInit 1000000 (-1000000)
      (by norm_num [ServoState.inRange, angleInRange, servoInit])⟩

/-- **C2** (code bug).  The claim — following the specification — expects
that when the primary tilt sits at a limit and the correction pushes
further, only the arm moves.  In the code, for *every* in-range tilt angle
and *every* target, the saturation branch is unreachable
(`servo0_moved_of_inRange`), so one tick never changes the stored arm
angle nor commands the arm channels: the documented arm cascade is dead
code and the arm never moves where the claim requires it to. -/
theorem c2_arm_cascade_never_fires (s : ServoState) (tx ty : ℚ)
    (h0 : 0 ≤ s.servo0_angle) (h180 : s.servo0_angle ≤ 180) :
    (adjust_servo_angles_using_old_logic s tx ty).arm_angle = s.arm_angle ∧
    (adjust_servo_angles_using_old_logic s tx ty).ch2 = s.ch2 ∧
    (adjust_servo_angles_using_old_logic s tx ty).ch3 = s.ch3 := by
  have hm := servo0_moved_of_inRange s ty h0 h180
  unfold adjust_servo_angles_using_old_logic
  dsimp only
  simp [hm]

/-- Witness for C2 at the claim's own scenario: tilt pinned at 0 and the
target far above frame center, so the correction pushes further toward the
low limit (`delta_servo0 > 0`, candidate angle ≤ 0) — yet the arm stays
at 90° and no arm channel is commanded, where the claim expects an arm
step to 88.5°. -/
theorem c2_witness :
    (0 ≤ servoAtLowLimit.servo0_angle ∧ servoAtLowLimit.servo0_angle ≤ 180) ∧
    delta_servo0 0 > 0 ∧ new_servo0_angle servoAtLowLimit 0 ≤ 0 ∧
    ((adjust_servo_angles_using_old_logic servoAtLowLimit 320 0).arm_angle =
        servoAtLowLimit.arm_angle ∧
      (adjust_servo_angles_using_old_logic servoAtLowLimit 320 0).ch2 =
        servoAtLowLimit.ch2 ∧
      (adjust_servo_angles_using_old_logic servoAtLowLimit 320 0).ch3 =
        servoAtLowLimit.ch3) :=
  ⟨by norm_num [servoAtLowLimit, servoInit],
    by norm_num [delta_servo0, delta_for, CENTRE_Y, DEADZONE_Y, K_P, SERVO_STEP],
    by norm_num [new_servo0_angle, clamp180, servoAtLowLimit, servoInit,
      delta_servo0, delta_for, CENTRE_Y, DEADZONE_Y, K_P, SERVO_STEP],
    c2_arm_cascade_never_fires servoAtLowLimit 320 0
      (by norm_num [servoAtLowLimit, servoInit])
      (by norm_num [servoAtLowLimit, servoInit])⟩

/-- **C9** (counterexample).  With the pan dead-zone enabled over
`[0, 180]` and a requested pan angle of 96.5° inside it, the hardware
command is suppressed (`ch1` is unchanged) — but the stored in-memory
`servo1_angle` is still overwritten with the requested angle, contradicting
the claim that "both the commanded hardware angle and the stored in-memory
angle stay unchanged". -/
theorem c9_counterexample :
    (adjust_servo_angles_using_old_logic servoPanDz 0 180).ch1 =
      servoPanDz.ch1 ∧
    (adjust_servo_angles_using_old_logic servoPanDz 0 180).servo1_angle ≠
      servoPanDz.servo1_angle := by
  norm_num [adjust_servo_angles_using_old_logic, servo0_moved, new_servo0_angle,
    new_servo1_angle, delta_servo0, delta_servo1, delta_for, clamp180,
    set_servo_angle_with_deadzone, setCh, in_deadzone, dzOf,
    set_arm_angle_with_deadzone_run, set_arm_angle_with_deadzone,
    set_arm_position, servoPanDz, servoInit, dzDisabled,
    CENTRE_X, CENTRE_Y, DEADZONE_X, DEADZONE_Y, K_P, SERVO_STEP]

/-- **C9** (amended).  Whenever a requested (clamped) angle falls inside an
axis's enabled dead-zone, the hardware command is suppressed — the state
(in particular every channel) is left untouched, and the arm call returns
`ok` without commanding; a dead-zone with `min > max` never suppresses any
request; but at tick level the stored `servo1_angle` is always overwritten
with the requested clamped angle, dead-zone or not. -/
theorem c9_deadzone_suppresses_commands_not_stored_angles :
    (∀ (s : ServoState) (idx : ℕ) (a : ℚ) (key : DzKey),
      (dzOf s key).1 ≤ (dzOf s key).2 →
      (dzOf s key).1 ≤ clamp180 a → clamp180 a ≤ (dzOf s key).2 →
      set_servo_angle_with_deadzone s idx a key = s) ∧
    (∀ (s : ServoState) (a : ℚ),
      s.deadzones.arm.1 ≤ s.deadzones.arm.2 →
      s.deadzones.arm.1 ≤ clamp180 a → clamp180 a ≤ s.deadzones.arm.2 →
      set_arm_angle_with_deadzone s a = .ok s) ∧
    (∀ (s : ServoState) (idx : ℕ) (a : ℚ) (key : DzKey),
      (dzOf s key).2 < (dzOf s key).1 →
      set_servo_angle_with_deadzone s idx a key = setCh s idx (clamp180 a)) ∧
    (∀ (s : ServoState) (tx ty : ℚ),
      (adjust_servo_angles_using_old_logic s tx ty).servo1_angle =
        new_servo1_angle s tx) := by
  refine ⟨?_, ?_, ?_, ?_⟩
  · intro s idx a key h1 h2 h3
    unfold set_servo_angle_with_deadzone
    dsimp only
    rw [if_pos ((in_deadzone_iff _ _).mpr ⟨h1, h2, h3⟩)]
  · intro s a h1 h2 h3
    unfold set_arm_angle_with_deadzone
    dsimp only
    rw [if_pos ((in_deadzone_iff _ _).mpr ⟨h1, h2, h3⟩)]
  · intro s idx a key h
    unfold set_servo_angle_with_deadzone
    dsimp only
    rw [in_deadzone_disabled _ _ h]
    simp
  · intro s tx ty
    unfold adjust_servo_angles_using_old_logic
    dsimp only
    cases hmv : servo0_moved s ty <;> simp [hmv]

/-- Witness for C9 (amended): the pan dead-zone `[0, 180]` of `servoPanDz`
suppresses the command for 96.5°, and the tick at target `(0, 180)` still
stores the requested pan angle. -/
theorem c9_amended_witness :
    set_servo_angle_with_deadzone servoPanDz 1 (193/2) .servo1 = servoPanDz ∧
    (adjust_servo_angles_using_old_logic servoPanDz 0 180).servo1_angle =
      new_servo1_angle servoPanDz 0 :=
  ⟨c9_deadzone_suppresses_commands_not_stored_angles.1 servoPanDz 1 (193/2)
      .servo1 (by norm_num [dzOf, servoPanDz, servoInit])
      (by norm_num [dzOf, servoPanDz, servoInit, clamp180])
      (by norm_num [dzOf, servoPanDz, servoInit, clamp180]),
    c9_deadzone_suppresses_commands_not_stored_angles.2.2.2 servoPanDz 0 180⟩

/-- **C10.**  `set_arm_angle_with_deadzone` always clamps before calling
`set_arm_position`, so the `ValueError` branch is unreachable (the call
always returns `ok`); and whenever the arm is actually commanded, the two
linked channels satisfy `servo[2].angle = 180 - servo[3].angle`. -/
theorem c10_linked_arm_channels (s : ServoState) (a : ℚ) :
    set_arm_angle_with_deadzone s a =
      .ok (set_arm_angle_with_deadzone_run s a) ∧
    (set_arm_angle_with_deadzone_run s a = s ∨
      ((set_arm_angle_with_deadzone_run s a).ch2 =
          180 - (set_arm_angle_with_deadzone_run s a).ch3 ∧
        (set_arm_angle_with_deadzone_run s a).ch3 = clamp180 a)) := by
  refine ⟨set_arm_angle_with_deadzone_ok s a, ?_⟩
  rw [set_arm_run_eq]
  split
  · exact Or.inl rfl
  · exact Or.inr ⟨rfl, rfl⟩

/-! ### The conflict resolver -/

theorem alGet_alSet_self {α : Type} (l : List (String × α)) (k : String) (v : α) :
    alGet (alSet l k v) k = some v := by
  induction l with
  | nil => simp [alSet, alGet]
  | cons p rest ih =>
    obtain ⟨k2, v2⟩ := p
    by_cases h : k2 = k
    · simp [alSet, alGet, h]
    · simp [alSet, alGet, h, ih]

theorem alGet_alSet_ne {α : Type} (l : List (String × α)) (k k2 : String)
    (v : α) (h : k ≠ k2) : alGet (alSet l k v) k2 = alGet l k2 := by
  induction l with
  | nil => simp [alSet, alGet, h]
  | cons p rest ih =>
    obtain ⟨k3, v3⟩ := p
    by_cases h3 : k3 = k
    · subst h3
      simp [alSet, alGet, h]
    · simp [alSet, alGet, h3, ih]

theorem foldl_distinct_const (d : String) (l : List String) :
    ∀ acc : List String, (∀ x ∈ l, x = d) → (acc = [] ∨ acc = [d]) →
      l.foldl (fun acc a => if a ∈ acc then acc else acc ++ [a]) acc = [] ∨
      l.foldl (fun acc a => if a ∈ acc then acc else acc ++ [a]) acc = [d] := by
  induction l with
  | nil => intro acc _ hacc; simpa using hacc
  | cons x xs ih =>
    intro acc hl hacc
    have hx : x = d := hl x (List.mem_cons_self x xs)
    subst hx
    rw [List.foldl_cons]
    refine ih _ (fun y hy => hl y (List.mem_cons_of_mem _ hy)) ?_
    rcases hacc with h1 | h1 <;> subst h1
    · right; simp
    · right; simp

/-- A window whose entries all carry one identity has at most one distinct
identity. -/
theorem distinctList_const_len (d : String) (l : List String)
    (h : ∀ x ∈ l, x = d) : (distinctList l).length ≤ 1 := by
  unfold distinctList
  rcases foldl_distinct_const d l [] h (Or.inl rfl) with h1 | h1 <;>
    rw [h1] <;> simp

/-- The stored window always becomes the purged window plus the new entry,
whatever branch the resolver takes. -/
theorem check_conflicts_eq (s : ResolverState) (now : ℚ) (gid did : String)
    (cx cy : ℚ) :
    (check_detection_conflicts s now gid did cx cy).1.detection_conflicts =
      alSet s.detection_conflicts gid
        (recent_detections s now gid did cx cy) := by
  unfold check_detection_conflicts
  dsimp only
  split
  · rfl
  · split <;> rfl

/-- Closed form of the resolver when the conflict branch is not taken. -/
theorem check_no_conflict (s : ResolverState) (now : ℚ) (gid did : String)
    (cx cy : ℚ)
    (h : ¬((distinctList ((recent_detections s now gid did cx cy).map
          WEntry.detection_id)).length > 1 ∧
        (recent_detections s now gid did cx cy).length ≥ CONFLICT_THRESHOLD)) :
    check_detection_conflicts s now gid did cx cy =
      ({ detection_conflicts :=
           alSet s.detection_conflicts gid
             (recent_detections s now gid did cx cy),
         current_override :=
           if (distinctList ((recent_detections s now gid did cx cy).map
                 WEntry.detection_id)).length = 1 ∧
               overrideTruthy s.current_override then none
           else s.current_override }, did) := by
  unfold check_detection_conflicts
  dsimp only
  rw [if_neg h]
  by_cases h1 : (distinctList ((recent_detections s now gid did cx cy).map
      WEntry.detection_id)).length = 1 ∧
      overrideTruthy s.current_override = true <;>
    simp [h1]

/-- One resolver call preserves the all-one-identity window invariant for
subject `g` and returns the submitted identity on calls for `g`. -/
theorem check_preserves_windowAll (s : ResolverState) (now : ℚ)
    (g d gid did : String) (cx cy : ℚ)
    (hw : windowAll s g d) (hcall : gid = g → did = d) :
    windowAll (check_detection_conflicts s now gid did cx cy).1 g d ∧
    (gid = g → (check_detection_conflicts s now gid did cx cy).2 = did) := by
  by_cases hg : gid = g
  · subst hg
    have hd : did = d := hcall rfl
    subst hd
    have hrec : ∀ e ∈ recent_detections s now gid did cx cy,
        e.detection_id = did := by
      intro e he
      unfold recent_detections at he
      rcases List.mem_append.mp he with h1 | h1
      · exact hw e (List.mem_of_mem_filter h1)
      · simp only [List.mem_singleton] at h1
        subst h1
        rfl
    have hlen : (distinctList ((recent_detections s now gid did cx cy).map
        WEntry.detection_id)).length ≤ 1 := by
      apply distinctList_const_len did
      intro x hx
      rcases List.mem_map.mp hx with ⟨e, he, hee⟩
      rw [← hee]
      exact hrec e he
    have hnoc : ¬((distinctList ((recent_detections s now gid did cx cy).map
        WEntry.detection_id)).length > 1 ∧
        (recent_detections s now gid did cx cy).length ≥ CONFLICT_THRESHOLD) := by
      rintro ⟨h1, -⟩
      omega
    rw [check_no_conflict s now gid did cx cy hnoc]
    refine ⟨?_, fun _ => rfl⟩
    intro e he
    simp only [alGet_alSet_self] at he
    exact hrec e he
  · constructor
    · intro e he
      rw [check_conflicts_eq, alGet_alSet_ne _ _ _ _ hg] at he
      exact hw e he
    · intro hh
      exact absurd hh hg

/-- Along any call sequence in which every call for subject `g` submits
identity `d`, the resolver keeps returning the submitted identity for `g`,
starting from any state whose window for `g` only holds `d`. -/
theorem runResolver_single_id (g d : String) (calls : List RCall) :
    ∀ s : ResolverState, windowAll s g d →
      (∀ c ∈ calls, c.gallery_id = g → c.detection_id = d) →
      ∀ p ∈ calls.zip (runResolver s calls).2,
        p.1.gallery_id = g → p.2 = p.1.detection_id := by
  induction calls with
  | nil =>
    intro s _ _ p hp
    simp [runResolver] at hp
  | cons c rest ih =>
    intro s hw hcalls p hp
    have hstep := check_preserves_windowAll s c.time g d c.gallery_id
      c.detection_id c.x c.y hw (hcalls c (List.mem_cons_self c rest))
    rw [runResolver] at hp
    dsimp only at hp
    rcases List.mem_cons.mp hp with h1 | h1
    · subst h1
      exact hstep.2
    · exact ih _ hstep.1
        (fun c2 hc2 => hcalls c2 (List.mem_cons_of_mem _ hc2)) p h1

/-- **C3.**  For every sequence of resolver calls in which every detection
for subject `g` carries the single detector identity `d`, the resolver —
started from its initial state — returns the submitted identity unchanged
on every call for `g`. -/
theorem c3_single_identity_always_returned (calls : List RCall) (g d : String)
    (hcalls : ∀ c ∈ calls, c.gallery_id = g → c.detection_id = d) :
    ∀ p ∈ calls.zip (runResolver initResolver calls).2,
      p.1.gallery_id = g → p.2 = p.1.detection_id := by
  apply runResolver_single_id g d calls initResolver ?_ hcalls
  intro e he
  simp [initResolver, alGet] at he

/-- Witness for C3: three calls — two for subject `"g"` with identity
`"a"`, one for another subject — all return the submitted identity. -/
theorem c3_witness :
    (∀ c ∈ [(⟨0, "g", "a", 1, 2⟩ : RCall), ⟨1/2, "g", "a", 3, 4⟩,
        ⟨2, "h", "b", 5, 6⟩], c.gallery_id = "g" → c.detection_id = "a") ∧
    (∀ p ∈ ([(⟨0, "g", "a", 1, 2⟩ : RCall), ⟨1/2, "g", "a", 3, 4⟩,
          ⟨2, "h", "b", 5, 6⟩].zip
        (runResolver initResolver [⟨0, "g", "a", 1, 2⟩, ⟨1/2, "g", "a", 3, 4⟩,
          ⟨2, "h", "b", 5, 6⟩]).2),
      p.1.gallery_id = "g" → p.2 = p.1.detection_id) :=
  ⟨by decide, c3_single_identity_always_returned _ "g" "a" (by decide)⟩

theorem foldl_min_le_init (a : ℚ) (l : List ℚ) : l.foldl min a ≤ a := by
  induction l generalizing a with
  | nil => exact le_refl a
  | cons x xs ih =>
    rw [List.foldl_cons]
    exact le_trans (ih (min a x)) (min_le_left a x)

/-- The `min_distance` fold with strict `<` computes the minimum value and
lands on the *first* element attaining it. -/
theorem foldl_pick_first_min (ps : List (String × ℚ)) :
    ∀ p : String × ℚ,
      (ps.foldl (fun a q => if q.2 < a.2 then q else a) p).2 =
        (ps.map Prod.snd).foldl min p.2 ∧
      (p :: ps).find?
          (fun q => decide (q.2 = (ps.map Prod.snd).foldl min p.2)) =
        some (ps.foldl (fun a q => if q.2 < a.2 then q else a) p) := by
  induction ps with
  | nil =>
    intro p
    refine ⟨rfl, List.find?_cons_of_pos _ ?_⟩
    simp
  | cons q qs ih =>
    intro p
    obtain ⟨ih1, ih2⟩ := ih (if q.2 < p.2 then q else p)
    have hmin : (List.map Prod.snd (q :: qs)).foldl min p.2 =
        (List.map Prod.snd qs).foldl min (if q.2 < p.2 then q else p).2 := by
      simp only [List.map_cons, List.foldl_cons]
      congr 1
      by_cases h : q.2 < p.2
      · rw [if_pos h, min_eq_right (le_of_lt h)]
      · rw [if_neg h, min_eq_left (not_lt.mp h)]
    have hfold : (q :: qs).foldl (fun a q => if q.2 < a.2 then q else a) p =
        qs.foldl (fun a q => if q.2 < a.2 then q else a)
          (if q.2 < p.2 then q else p) := by
      rw [List.foldl_cons]
    refine ⟨by rw [hfold, ih1, hmin], ?_⟩
    have hm_le : (List.map Prod.snd (q :: qs)).foldl min p.2 ≤
        (if q.2 < p.2 then q else p).2 := by
      rw [hmin]
      exact foldl_min_le_init _ _
    by_cases h : q.2 < p.2
    · -- the head `p` is not the minimum: its value is strictly above `q.2`
      have hne : ¬(p.2 = (List.map Prod.snd (q :: qs)).foldl min p.2) := by
        intro hh
        rw [if_pos h] at hm_le
        have hlt : (List.map Prod.snd (q :: qs)).foldl min p.2 < p.2 :=
          lt_of_le_of_lt hm_le h
        rw [← hh] at hlt
        exact lt_irrefl _ hlt
      rw [List.find?_cons_of_neg _ (by simpa using hne), hfold, hmin]
      rw [if_pos h] at ih2 ⊢
      exact ih2
    · -- the fold keeps `p`
      rw [if_neg h] at ih2 hm_le hmin
      rw [hmin] at hm_le
      rw [hfold, if_neg h, hmin]
      by_cases hp : p.2 = (List.map Prod.snd qs).foldl min p.2
      · -- `p` attains the minimum, so both sides pick `p`
        have hfindp : (p :: qs).find?
            (fun x => decide (x.2 = (List.map Prod.snd qs).foldl min p.2)) =
            some p := List.find?_cons_of_pos _ (by simpa using hp)
        have hr : qs.foldl (fun a q => if q.2 < a.2 then q else a) p = p := by
          have h2 := ih2
          rw [hfindp] at h2
          exact (Option.some.inj h2).symm
        rw [hr]
        exact List.find?_cons_of_pos _ (by simpa using hp)
      · -- `p` does not attain the minimum; neither does `q`
        have hq : ¬(q.2 = (List.map Prod.snd qs).foldl min p.2) := by
          intro hh
          have hple : p.2 ≤ q.2 := not_lt.mp h
          exact hp (le_antisymm (hh ▸ hple) hm_le)
        rw [List.find?_cons_of_neg _ (by simpa using hp),
          List.find?_cons_of_neg _ (by simpa using hq)]
        rw [List.find?_cons_of_neg _ (by simpa using hp)] at ih2
        exact ih2

/-- The `selectClosest` fold over groups agrees with the same fold over the
`(identity, squared distance)` pairs. -/
theorem selectClosest_fold_map (gs : List (String × List (ℚ × ℚ))) :
    ∀ p : String × ℚ,
      gs.foldl
        (fun acc g =>
          match acc with
          | none => some (g.1, groupDist2 g.2)
          | some (cid, md) =>
            if groupDist2 g.2 < md then some (g.1, groupDist2 g.2)
            else some (cid, md))
        (some p) =
      some ((gs.map (fun g => (g.1, groupDist2 g.2))).foldl
        (fun a q => if q.2 < a.2 then q else a) p) := by
  induction gs with
  | nil => intro p; rfl
  | cons g rest ih =>
    intro p
    obtain ⟨pc, pd⟩ := p
    rw [List.foldl_cons, List.map_cons, List.foldl_cons]
    by_cases h : groupDist2 g.2 < pd <;> simp only [h, if_pos, if_neg,
      ite_true, ite_false, if_true, if_false] <;> exact ih _

/-- The source's strict-`<` fold over the groups equals the spec-side
"first group attaining the minimal distance" selection. -/
theorem selectClosest_eq_specClosest (gs : List (String × List (ℚ × ℚ))) :
    selectClosest gs = specClosest gs := by
  cases gs with
  | nil => rfl
  | cons g rest =>
    unfold selectClosest specClosest
    dsimp only
    rw [List.foldl_cons]
    rw [selectClosest_fold_map rest (g.1, groupDist2 g.2)]
    obtain ⟨hv, hfind⟩ := foldl_pick_first_min
      (rest.map (fun h => (h.1, groupDist2 h.2))) (g.1, groupDist2 g.2)
    have hmm : ((rest.map (fun h => (h.1, groupDist2 h.2))).map Prod.snd) =
        rest.map (fun h => groupDist2 h.2) := by
      rw [List.map_map]
      rfl
    rw [hmm] at hfind
    have hcons : ((g.1, groupDist2 g.2) ::
        rest.map (fun h => (h.1, groupDist2 h.2))) =
        (g :: rest).map (fun h => (h.1, groupDist2 h.2)) := by
      rw [List.map_cons]
    rw [hcons, List.find?_map] at hfind
    -- hfind : ((g :: rest).find? …).map pf = some (fold result)
    simp only [Function.comp_def] at hfind
    dsimp only at hfind
    have hfst : ∀ x : Option (String × List (ℚ × ℚ)),
        Option.map Prod.fst (Option.map (fun h => (h.1, groupDist2 h.2)) x) =
          Option.map Prod.fst x := by
      intro x
      cases x <;> rfl
    rw [← hfst, hfind]

/-- Inserting into the group list never yields the empty list. -/
theorem groupInsert_ne_nil (gs : List (String × List (ℚ × ℚ))) (d : String)
    (p : ℚ × ℚ) : groupInsert gs d p ≠ [] := by
  cases gs with
  | nil => simp [groupInsert]
  | cons g rest =>
    unfold groupInsert
    split <;> simp

theorem foldl_groupInsert_ne_nil (es : List WEntry)
    (gs : List (String × List (ℚ × ℚ))) (h : gs ≠ []) :
    es.foldl (fun gs e => groupInsert gs e.detection_id (e.x, e.y)) gs ≠ [] := by
  induction es generalizing gs with
  | nil => simpa using h
  | cons e rest ih =>
    rw [List.foldl_cons]
    exact ih _ (groupInsert_ne_nil _ _ _)

theorem groupByDet_ne_nil (es : List WEntry) (h : es ≠ []) :
    groupByDet es ≠ [] := by
  cases es with
  | nil => exact absurd rfl h
  | cons e rest =>
    unfold groupByDet
    rw [List.foldl_cons]
    exact foldl_groupInsert_ne_nil rest _ (groupInsert_ne_nil _ _ _)

theorem selectClosest_isSome (gs : List (String × List (ℚ × ℚ)))
    (h : gs ≠ []) : ∃ c, selectClosest gs = some c := by
  cases gs with
  | nil => exact absurd rfl h
  | cons g rest =>
    unfold selectClosest
    rw [List.foldl_cons]
    rw [selectClosest_fold_map rest (g.1, groupDist2 g.2)]
    exact ⟨_, rfl⟩

/-- Closed form of the resolver on the conflict branch: the returned and
recorded identity is the spec-side first-closest group identity. -/
theorem check_conflict_branch (s : ResolverState) (now : ℚ) (gid did : String)
    (cx cy : ℚ)
    (h : (distinctList ((recent_detections s now gid did cx cy).map
          WEntry.detection_id)).length > 1 ∧
        (recent_detections s now gid did cx cy).length ≥ CONFLICT_THRESHOLD) :
    ∃ c, specClosest (groupByDet (recent_detections s now gid did cx cy)) =
        some c ∧
      check_detection_conflicts s now gid did cx cy =
        ({ detection_conflicts :=
             alSet s.detection_conflicts gid
               (recent_detections s now gid did cx cy),
           current_override := some c }, c) := by
  have hne : recent_detections s now gid did cx cy ≠ [] := by
    unfold recent_detections
    simp
  obtain ⟨c, hc⟩ := selectClosest_isSome _ (groupByDet_ne_nil _ hne)
  refine ⟨c, by rw [← selectClosest_eq_specClosest]; exact hc, ?_⟩
  unfold check_detection_conflicts
  dsimp only
  rw [if_pos h, hc]
  rfl

/-- **C4.**  Whenever the post-insert window for a subject holds at least
`CONFLICT_THRESHOLD = 3` entries across ≥ 2 distinct detector identities,
the resolver returns (and records as override) the identity of the first
group — in first-inserted order — whose mean position attains the minimal
Euclidean distance to the frame center (`specClosest`): the closest mean
wins, ties broken in favour of the first-inserted identity. -/
theorem c4_conflict_picks_first_closest_mean (s : ResolverState) (now : ℚ)
    (gid did : String) (cx cy : ℚ)
    (h1 : (distinctList ((recent_detections s now gid did cx cy).map
        WEntry.detection_id)).length > 1)
    (h2 : (recent_detections s now gid did cx cy).length ≥ CONFLICT_THRESHOLD) :
    ∃ c, specClosest (groupByDet (recent_detections s now gid did cx cy)) =
        some c ∧
      (check_detection_conflicts s now gid did cx cy).2 = c ∧
      (check_detection_conflicts s now gid did cx cy).1.current_override =
        some c := by
  obtain ⟨c, hc, heq⟩ := check_conflict_branch s now gid did cx cy ⟨h1, h2⟩
  exact ⟨c, hc, by rw [heq], by rw [heq]⟩

/-- Witness for C4: subject `"g"` with two recent `"a"` entries at the
center and a new `"b"` entry far away — three entries, two identities. -/
theorem c4_witness :
    (distinctList ((recent_detections resolverTwoA (3/4) "g" "b" 0 0).map
        WEntry.detection_id)).length > 1 ∧
    (recent_detections resolverTwoA (3/4) "g" "b" 0 0).length ≥
      CONFLICT_THRESHOLD ∧
    (∃ c, specClosest (groupByDet
          (recent_detections resolverTwoA (3/4) "g" "b" 0 0)) = some c ∧
      (check_detection_conflicts resolverTwoA (3/4) "g" "b" 0 0).2 = c ∧
      (check_detection_conflicts resolverTwoA (3/4) "g" "b" 0
          0).1.current_override = some c) := by
  have h1 : (distinctList ((recent_detections resolverTwoA (3/4) "g" "b" 0
      0).map WEntry.detection_id)).length > 1 := by
    norm_num +decide [recent_detections, purged_window, alGet, resolverTwoA,
      DETECTION_WINDOW, distinctList]
  have h2 : (recent_detections resolverTwoA (3/4) "g" "b" 0 0).length ≥
      CONFLICT_THRESHOLD := by
    norm_num [recent_detections, purged_window, alGet, resolverTwoA,
      DETECTION_WINDOW, CONFLICT_THRESHOLD]
  exact ⟨h1, h2,
    c4_conflict_picks_first_closest_mean resolverTwoA (3/4) "g" "b" 0 0 h1 h2⟩

/-- **C8** (counterexample).  Start with a standing override `"x"` and one
`"a"` entry for subject `"g"`; the call submitting `"b"` makes the window
hold two distinct identities but only 2 < 3 entries.  The resolver returns
the submitted `"b"` — but it does *not* clear the standing override,
contradicting the claim that in the below-threshold case "any standing
override" is cleared. -/
theorem c8_counterexample :
    (check_detection_conflicts resolverOneOverride (1/2) "g" "b" 0 0).2 =
      "b" ∧
    (check_detection_conflicts resolverOneOverride (1/2) "g" "b" 0
        0).1.current_override ≠ none := by
  norm_num +decide [check_detection_conflicts, recent_detections,
    purged_window, alGet, alSet, resolverOneOverride, DETECTION_WINDOW,
    CONFLICT_THRESHOLD, distinctList, overrideTruthy]

/-- **C8** (amended).  Whenever the post-insert window holds a single
distinct identity or fewer than `CONFLICT_THRESHOLD` entries, the resolver
returns the submitted identity unchanged; but the standing override is
cleared only in the single-identity case (and only when one is set and
non-empty) — in the multi-identity below-threshold case it is left in
place. -/
theorem c8_no_conflict_returns_submitted (s : ResolverState) (now : ℚ)
    (gid did : String) (cx cy : ℚ)
    (h : (distinctList ((recent_detections s now gid did cx cy).map
          WEntry.detection_id)).length = 1 ∨
        (recent_detections s now gid did cx cy).length < CONFLICT_THRESHOLD) :
    (check_detection_conflicts s now gid did cx cy).2 = did ∧
    (check_detection_conflicts s now gid did cx cy).1.current_override =
      (if (distinctList ((recent_detections s now gid did cx cy).map
            WEntry.detection_id)).length = 1 ∧
          overrideTruthy s.current_override then none
        else s.current_override) := by
  have hnoc : ¬((distinctList ((recent_detections s now gid did cx cy).map
      WEntry.detection_id)).length > 1 ∧
      (recent_detections s now gid did cx cy).length ≥ CONFLICT_THRESHOLD) := by
    rcases h with h | h
    · rintro ⟨h1, -⟩
      omega
    · rintro ⟨-, h2⟩
      omega
  rw [check_no_conflict s now gid did cx cy hnoc]
  exact ⟨rfl, rfl⟩

/-- Witness for C8 (amended): one recent `"a"` entry plus a submitted
`"a"` — single identity, so the submitted identity comes back and the
standing override `"x"` is cleared. -/
theorem c8_witness :
    (distinctList ((recent_detections resolverOneOverride (1/2) "g" "a" 0
        0).map WEntry.detection_id)).length = 1 ∧
    ((check_detection_conflicts resolverOneOverride (1/2) "g" "a" 0 0).2 =
        "a" ∧
      (check_detection_conflicts resolverOneOverride (1/2) "g" "a" 0
          0).1.current_override =
        (if (distinctList ((recent_detections resolverOneOverride (1/2) "g"
              "a" 0 0).map WEntry.detection_id)).length = 1 ∧
            overrideTruthy resolverOneOverride.current_override then none
          else resolverOneOverride.current_override)) := by
  have h1 : (distinctList ((recent_detections resolverOneOverride (1/2) "g"
      "a" 0 0).map WEntry.detection_id)).length = 1 := by
    norm_num +decide [recent_detections, purged_window, alGet,
      resolverOneOverride, DETECTION_WINDOW, distinctList]
  exact ⟨h1, c8_no_conflict_returns_submitted resolverOneOverride (1/2) "g"
    "a" 0 0 (Or.inl h1)⟩

/-! ### The target selector -/

/-- **C5.**  When the externally requested target id differs from the
current active target, the tick sets both `TARGET_GALLERY_ID` and
`LAST_MANUAL_TARGET_ID` to the requested id, clears both loss timers, flags
the manual update — and skips auto-regression entirely: the tick's result
is exactly the manual-update state, so no auto-regression rule can override
the request in the same tick. -/
theorem c5_manual_update_wins_tick (s : TargetState) (requested : String)
    (now : ℚ) (h : requested ≠ s.TARGET_GALLERY_ID) :
    target_tick s requested now =
      { s with TARGET_GALLERY_ID := requested,
               LAST_MANUAL_TARGET_ID := requested,
               manual_update_detected := true,
               lost_target_start_time := none,
               lost_1_start_time := none } := by
  unfold target_tick check_and_update_manual_target
  dsimp only
  rw [if_pos h]
  simp

/-- Witness for C5: requesting `"2"` while tracking `"7"`. -/
theorem c5_witness :
    ("2" ≠ targetInit7.TARGET_GALLERY_ID) ∧
    target_tick targetInit7 "2" 5 =
      { targetInit7 with TARGET_GALLERY_ID := "2",
                         LAST_MANUAL_TARGET_ID := "2",
                         manual_update_detected := true,
                         lost_target_start_time := none,
                         lost_1_start_time := none } :=
  ⟨by decide, c5_manual_update_wins_tick targetInit7 "2" 5 (by decide)⟩

theorem get_active_ids_nil (s : TargetState) (now window : ℚ)
    (h : s.last_seen_gallery_time = []) : get_active_ids s now window = [] := by
  simp [get_active_ids, h]

@[simp] theorem auto_block1_last_seen (s : TargetState) (now : ℚ)
    (a : List String) :
    (auto_block1 s now a).last_seen_gallery_time = s.last_seen_gallery_time := by
  unfold auto_block1
  split
  · split
    · rfl
    · split <;> rfl
  · rfl

@[simp] theorem auto_block2_last_seen (s : TargetState) (now : ℚ)
    (a : List String) :
    (auto_block2 s now a).last_seen_gallery_time = s.last_seen_gallery_time := by
  unfold auto_block2
  split
  · split
    · rfl
    · split
      · split <;> rfl
      · rfl
  · rfl

theorem auto_block3_nil (s : TargetState) : auto_block3 s [] = s := by
  unfold auto_block3
  simp

theorem auto_block4_nil (s : TargetState) : auto_block4 s [] = s := by
  unfold auto_block4
  simp

theorem auto_block1_target (s : TargetState) (now : ℚ) (a : List String) :
    (auto_block1 s now a).TARGET_GALLERY_ID = s.TARGET_GALLERY_ID ∨
    (auto_block1 s now a).TARGET_GALLERY_ID = "1" := by
  unfold auto_block1
  split
  · split
    · exact Or.inl rfl
    · split
      · exact Or.inr rfl
      · exact Or.inl rfl
  · exact Or.inl rfl

theorem auto_block2_nil_target (s : TargetState) (now : ℚ) :
    (auto_block2 s now []).TARGET_GALLERY_ID = s.TARGET_GALLERY_ID := by
  unfold auto_block2
  split
  · split
    · rfl
    · split
      · split
        · next hlen => simp at hlen
        · rfl
      · rfl
  · rfl

theorem auto_block1_nil_none (s : TargetState) (now : ℚ)
    (h : s.lost_target_start_time = none) :
    auto_block1 s now [] = { s with lost_target_start_time := some now } := by
  unfold auto_block1
  rw [if_pos (List.not_mem_nil _), h]

theorem auto_block1_nil_mature (s : TargetState) (now t0 : ℚ)
    (h : s.lost_target_start_time = some t0) (hmat : now - t0 ≥ 1) :
    auto_block1 s now [] =
      { s with TARGET_GALLERY_ID := "1", lost_target_start_time := none } := by
  unfold auto_block1
  rw [if_pos (List.not_mem_nil _), h]
  dsimp only
  rw [if_pos hmat]

theorem auto_block1_nil_immature (s : TargetState) (now t0 : ℚ)
    (h : s.lost_target_start_time = some t0) (him : ¬(now - t0 ≥ 1)) :
    auto_block1 s now [] = s := by
  unfold auto_block1
  rw [if_pos (List.not_mem_nil _), h]
  dsimp only
  rw [if_neg him]

theorem auto_block2_not1 (s : TargetState) (now : ℚ)
    (h : s.TARGET_GALLERY_ID ≠ "1") :
    auto_block2 s now [] = { s with lost_1_start_time := none } := by
  unfold auto_block2
  rw [if_neg fun hc => h hc.1]

theorem auto_block2_is1_none (s : TargetState) (now : ℚ)
    (h1 : s.TARGET_GALLERY_ID = "1") (h : s.lost_1_start_time = none) :
    auto_block2 s now [] = { s with lost_1_start_time := some now } := by
  unfold auto_block2
  rw [if_pos ⟨h1, List.not_mem_nil _⟩, h]

/-- One auto-regression tick with nothing recently seen keeps the default
target `"1"` (the block-2 switch is guarded by a nonempty active list). -/
theorem auto_step_keeps_one (s : TargetState) (now : ℚ)
    (hseen : s.last_seen_gallery_time = [])
    (h1 : s.TARGET_GALLERY_ID = "1") :
    (auto_regression_logic s now).TARGET_GALLERY_ID = "1" ∧
    (auto_regression_logic s now).last_seen_gallery_time = [] := by
  unfold auto_regression_logic
  rw [get_active_ids_nil s now 1 hseen]
  dsimp only
  rw [auto_block4_nil, auto_block3_nil]
  constructor
  · rw [auto_block2_nil_target]
    rcases auto_block1_target s now [] with h | h
    · rw [h]
      exact h1
    · exact h
  · rw [auto_block2_last_seen, auto_block1_last_seen]
    exact hseen

/-- Every state after a run of auto-regression ticks from a `"1"`-tracking
state with nothing seen still tracks `"1"`. -/
theorem autoTail_keeps_one (ts : List ℚ) :
    ∀ s : TargetState, s.last_seen_gallery_time = [] →
      s.TARGET_GALLERY_ID = "1" →
      ∀ x ∈ autoTail s ts, x.TARGET_GALLERY_ID = "1" := by
  induction ts with
  | nil =>
    intro s _ _ x hx
    simp [autoTail] at hx
  | cons t rest ih =>
    intro s hseen h1 x hx
    obtain ⟨hT, hS⟩ := auto_step_keeps_one s t hseen h1
    simp only [autoTail, List.cons.injEq] at hx
    rcases List.mem_cons.mp hx with h | h
    · subst h
      exact hT
    · exact ih _ hS hT x h

/-- First pre-switch tick: the loss timer starts. -/
theorem auto_step_pre_start (s : TargetState) (now : ℚ)
    (hseen : s.last_seen_gallery_time = [])
    (hT : s.TARGET_GALLERY_ID ≠ "1")
    (hlost : s.lost_target_start_time = none) :
    auto_regression_logic s now =
      { s with lost_target_start_time := some now,
               lost_1_start_time := none } := by
  unfold auto_regression_logic
  rw [get_active_ids_nil s now 1 hseen]
  dsimp only
  rw [auto_block1_nil_none s now hlost]
  rw [auto_block2_not1]
  · rw [auto_block3_nil, auto_block4_nil]
  · exact hT

/-- Pre-switch tick before 1 s of absence: nothing changes (except the
always-reset `lost_1` timer). -/
theorem auto_step_pre_immature (s : TargetState) (now t0 : ℚ)
    (hseen : s.last_seen_gallery_time = [])
    (hT : s.TARGET_GALLERY_ID ≠ "1")
    (hlost : s.lost_target_start_time = some t0)
    (him : ¬(now - t0 ≥ 1)) :
    auto_regression_logic s now = { s with lost_1_start_time := none } := by
  unfold auto_regression_logic
  rw [get_active_ids_nil s now 1 hseen]
  dsimp only
  rw [auto_block1_nil_immature s now t0 hlost him]
  rw [auto_block2_not1]
  · rw [auto_block3_nil, auto_block4_nil]
  · exact hT

/-- The switch tick: after ≥ 1 s of absence the target becomes `"1"` and
the loss timer is cleared in the same tick. -/
theorem auto_step_pre_mature (s : TargetState) (now t0 : ℚ)
    (hseen : s.last_seen_gallery_time = [])
    (hlost : s.lost_target_start_time = some t0)
    (hlost1 : s.lost_1_start_time = none)
    (hmat : now - t0 ≥ 1) :
    auto_regression_logic s now =
      { s with TARGET_GALLERY_ID := "1",
               lost_target_start_time := none,
               lost_1_start_time := some now } := by
  unfold auto_regression_logic
  rw [get_active_ids_nil s now 1 hseen]
  dsimp only
  rw [auto_block1_nil_mature s now t0 hlost hmat]
  rw [auto_block2_is1_none]
  · rw [auto_block3_nil, auto_block4_nil]
  · rfl
  · exact hlost1

/-- Pre-switch run: with the timer already set at `t0` and some tick at
least 1 s later, the trace splits into states still holding the old target,
then the switch state (target `"1"`, timer cleared), then `"1"` forever. -/
theorem autoTail_pre (rest : List ℚ) :
    ∀ (s : TargetState) (t0 : ℚ),
      s.last_seen_gallery_time = [] → s.TARGET_GALLERY_ID ≠ "1" →
      s.lost_target_start_time = some t0 → s.lost_1_start_time = none →
      (∃ u ∈ rest, 1 ≤ u - t0) →
      ∃ l1 sw l2, autoTail s rest = l1 ++ sw :: l2 ∧
        (∀ x ∈ l1, x.TARGET_GALLERY_ID = s.TARGET_GALLERY_ID) ∧
        sw.TARGET_GALLERY_ID = "1" ∧ sw.lost_target_start_time = none ∧
        (∀ x ∈ l2, x.TARGET_GALLERY_ID = "1") := by
  induction rest with
  | nil =>
    intro s t0 _ _ _ _ hmat
    simp at hmat
  | cons u us ih =>
    intro s t0 hseen hT hlost hlost1 hmat
    by_cases hm : 1 ≤ u - t0
    · have hstep := auto_step_pre_mature s u t0 hseen hlost hlost1 hm
      refine ⟨[], auto_regression_logic s u,
        autoTail (auto_regression_logic s u) us, by simp [autoTail],
        by intro x hx; simp at hx, by rw [hstep], by rw [hstep], ?_⟩
      exact autoTail_keeps_one us _ (by rw [hstep]; exact hseen)
        (by rw [hstep])
    · have hstep := auto_step_pre_immature s u t0 hseen hT hlost hm
      obtain ⟨u2, hu2, hu2m⟩ := hmat
      have hu2us : u2 ∈ us := by
        rcases List.mem_cons.mp hu2 with h | h
        · subst h
          exact absurd hu2m hm
        · exact h
      obtain ⟨l1, sw, l2, heq, hl1, hsw1, hsw2, hl2⟩ :=
        ih (auto_regression_logic s u) t0 (by rw [hstep]; exact hseen)
          (by rw [hstep]; exact hT) (by rw [hstep]; exact hlost)
          (by rw [hstep]) ⟨u2, hu2us, hu2m⟩
      refine ⟨auto_regression_logic s u :: l1, sw, l2, ?_, ?_, hsw1, hsw2, hl2⟩
      · simp only [autoTail, heq, List.cons_append]
      · intro x hx
        rcases List.mem_cons.mp hx with h | h
        · subst h
          rw [hstep]
        · exact (hl1 x h).trans (by rw [hstep])

/-- **C6.**  In a run of pure auto-regression ticks (no manual update) in
which nothing is recently seen, starting from a non-default target with
clear timers and containing a tick at least 1 s after the first, the state
trace splits as `l1 ++ sw :: l2`: every state in `l1` still holds the
original target, the switch state `sw` holds `"1"` with the loss timer
cleared at that very tick, and every later state holds `"1"`.  Since the
original target differs from `"1"`, the active target changes to `"1"` at
exactly one tick of the run and the switch is never re-applied. -/
theorem c6_target_loss_switches_to_default_once
    (s : TargetState) (t0 : ℚ) (rest : List ℚ)
    (hseen : s.last_seen_gallery_time = [])
    (hT : s.TARGET_GALLERY_ID ≠ "1")
    (hlost : s.lost_target_start_time = none)
    (hlost1 : s.lost_1_start_time = none)
    (hmat : ∃ u ∈ rest, 1 ≤ u - t0) :
    ∃ l1 sw l2, autoStates s (t0 :: rest) = l1 ++ sw :: l2 ∧
      l1 ≠ [] ∧
      (∀ x ∈ l1, x.TARGET_GALLERY_ID = s.TARGET_GALLERY_ID) ∧
      sw.TARGET_GALLERY_ID = "1" ∧ sw.lost_target_start_time = none ∧
      (∀ x ∈ l2, x.TARGET_GALLERY_ID = "1") := by
  have hstep := auto_step_pre_start s t0 hseen hT hlost
  obtain ⟨l1, sw, l2, heq, hl1, hsw1, hsw2, hl2⟩ :=
    autoTail_pre rest (auto_regression_logic s t0) t0
      (by rw [hstep]; exact hseen) (by rw [hstep]; exact hT)
      (by rw [hstep]) (by rw [hstep]) hmat
  refine ⟨s :: auto_regression_logic s t0 :: l1, sw, l2, ?_, by simp, ?_,
    hsw1, hsw2, hl2⟩
  · simp only [autoStates, autoTail, heq, List.cons_append]
  · intro x hx
    rcases List.mem_cons.mp hx with h | h
    · subst h
      rfl
    rcases List.mem_cons.mp h with h2 | h2
    · subst h2
      rw [hstep]
    · exact (hl1 x h2).trans (by rw [hstep])

/-- Witness for C6: tracking `"7"`, nothing seen, ticks at 0, 0.5, 1.5
and 2 — the run switches to `"1"` exactly once. -/
theorem c6_witness :
    targetInit7.TARGET_GALLERY_ID ≠ "1" ∧
    (∃ u ∈ [(1 : ℚ)/2, 3/2, 2], 1 ≤ u - 0) ∧
    (∃ l1 sw l2,
      autoStates targetInit7 [0, 1/2, 3/2, 2] = l1 ++ sw :: l2 ∧
      l1 ≠ [] ∧
      (∀ x ∈ l1, x.TARGET_GALLERY_ID = targetInit7.TARGET_GALLERY_ID) ∧
      sw.TARGET_GALLERY_ID = "1" ∧ sw.lost_target_start_time = none ∧
      (∀ x ∈ l2, x.TARGET_GALLERY_ID = "1")) :=
  ⟨by decide, ⟨3/2, by norm_num, by norm_num⟩,
    c6_target_loss_switches_to_default_once targetInit7 0 [1/2, 3/2, 2]
      rfl (by decide) rfl rfl ⟨3/2, by norm_num, by norm_num⟩⟩

/-! ### The tracking loop -/

/-- **C7** (counterexample).  Processing the same detection record (same
sequence number 5, identity `"a"`, position) twice at the same instant is
*not* idempotent: the duplicate appends a second entry to the subject's
conflict window (length 2 after the duplicate versus 1 after the first
processing), because `check_detection_conflicts` runs before the
`offset > last_offset` guard. -/
theorem c7_counterexample :
    ((alGet (process_row (process_row trackInit7 0 rowC7) 0
          rowC7).resolver.detection_conflicts "7").getD []).length = 2 ∧
    ((alGet (process_row trackInit7 0 rowC7).resolver.detection_conflicts
          "7").getD []).length = 1 := by
  norm_num +decide [process_row, invalidField, update_last_seen,
    check_detection_conflicts, recent_detections, purged_window, alGet,
    alSet, distinctList, overrideTruthy, CONFLICT_THRESHOLD,
    DETECTION_WINDOW, trackInit7, targetInit7, initResolver, rowC7]

/-- **C7** (amended).  Re-processing a detection record whose sequence
number does not exceed the last consumed sequence leaves the servo state,
the last consumed sequence and the last target position unchanged — the
actuation guard `offset > last_offset` filters the duplicate — though the
duplicate still refreshes `last_seen` and appends to the conflict
window. -/
theorem c7_duplicate_never_actuates (s : TrackState) (now : ℚ) (row : Row)
    (h : row.offset ≤ s.last_offset) :
    (process_row s now row).servo = s.servo ∧
    (process_row s now row).last_offset = s.last_offset ∧
    (process_row s now row).x_last = s.x_last ∧
    (process_row s now row).y_last = s.y_last := by
  unfold process_row
  dsimp only
  split <;> split
  · split
    · next hc => exact absurd hc.2 (not_lt.mpr h)
    · exact ⟨rfl, rfl, rfl, rfl⟩
  · exact ⟨rfl, rfl, rfl, rfl⟩
  · split
    · next hc => exact absurd hc.2 (not_lt.mpr h)
    · exact ⟨rfl, rfl, rfl, rfl⟩
  · exact ⟨rfl, rfl, rfl, rfl⟩

/-- Witness for C7 (amended): the state right after the first processing of
the sequence-5 record re-processes the same record without touching the
servo state, the consumed sequence or the last position. -/
theorem c7_witness :
    rowC7.offset ≤ (process_row trackInit7 0 rowC7).last_offset ∧
    ((process_row (process_row trackInit7 0 rowC7) 0 rowC7).servo =
        (process_row trackInit7 0 rowC7).servo ∧
      (process_row (process_row trackInit7 0 rowC7) 0 rowC7).last_offset =
        (process_row trackInit7 0 rowC7).last_offset ∧
      (process_row (process_row trackInit7 0 rowC7) 0 rowC7).x_last =
        (process_row trackInit7 0 rowC7).x_last ∧
      (process_row (process_row trackInit7 0 rowC7) 0 rowC7).y_last =
        (process_row trackInit7 0 rowC7).y_last) := by
  have h : rowC7.offset ≤ (process_row trackInit7 0 rowC7).last_offset := by
    norm_num +decide [process_row, invalidField, update_last_seen,
      check_detection_conflicts, recent_detections, purged_window, alGet,
      alSet, distinctList, overrideTruthy, CONFLICT_THRESHOLD,
      DETECTION_WINDOW, trackInit7, targetInit7, initResolver, rowC7]
  exact ⟨h, c7_duplicate_never_actuates (process_row trackInit7 0 rowC7) 0
    rowC7 h⟩

end TrackingMotors
